import Mathlib

/-!
# Shallow embedding of the visio-mobile session core

This file embeds the parts of the `visio-core` / `visio-video` /
`visio-desktop` crates that the verified claims are about:

* `events.rs`     — event data model and `EventEmitter`
* `participants.rs` — `ParticipantManager`
* `chat.rs`       — `ChatService` unread counter
* `hand_raise.rs` — `HandRaiseManager` (BTreeMap queue, auto-lower)
* `visio-video/src/lib.rs` — track renderer registry
* `room.rs`       — `RoomManager::event_loop`

Rust `HashMap` / `BTreeMap` values are modelled as association lists
(`BTreeMap` as a list kept in ascending key order); async spawns are
serialised into explicit step functions; external collaborators
(the transport, chrono parsing, JSON parsing) appear as parameters or
pre-parsed event payloads.
-/

namespace Visio

/-! ## Data model (src/crates/visio-core/src/events.rs) -/

inductive ConnectionState
  | Disconnected
  | Connecting
  | Connected
  | Reconnecting (attempt : Nat)
deriving DecidableEq

inductive ConnectionQuality
  | Excellent
  | Good
  | Poor
  | Lost
deriving DecidableEq

inductive TrackKind
  | Audio
  | Video
deriving DecidableEq

inductive TrackSource
  | Microphone
  | Camera
  | ScreenShare
  | Unknown
deriving DecidableEq

structure ParticipantInfo where
  sid : String
  identity : String
  name : Option String
  is_muted : Bool
  has_video : Bool
  video_track_sid : Option String
  connection_quality : ConnectionQuality
deriving DecidableEq

structure TrackInfo where
  sid : String
  participant_sid : String
  kind : TrackKind
  source : TrackSource
deriving DecidableEq

structure ChatMessage where
  id : String
  sender_sid : String
  sender_name : String
  text : String
  timestamp_ms : Nat
deriving DecidableEq

/-- Application events emitted to native UI listeners (`VisioEvent` in
events.rs; the `HandRaisedChanged` / `UnreadCountChanged` variants are
emitted by hand_raise.rs and chat.rs). -/
inductive VisioEvent
  | ConnectionStateChanged (s : ConnectionState)
  | ParticipantJoined (p : ParticipantInfo)
  | ParticipantLeft (sid : String)
  | TrackSubscribed (t : TrackInfo)
  | TrackUnsubscribed (sid : String)
  | TrackMuted (participant_sid : String) (source : TrackSource)
  | TrackUnmuted (participant_sid : String) (source : TrackSource)
  | ActiveSpeakersChanged (sids : List String)
  | ConnectionQualityChanged (participant_sid : String) (quality : ConnectionQuality)
  | ChatMessageReceived (m : ChatMessage)
  | HandRaisedChanged (participant_sid : String) (raised : Bool) (position : Nat)
  | UnreadCountChanged (count : Nat)
deriving DecidableEq

/-! ## ParticipantManager (src/crates/visio-core/src/participants.rs) -/

structure ParticipantManager where
  participants : List ParticipantInfo
  active_speakers : List String
  local_sid : Option String
deriving DecidableEq

namespace ParticipantManager

def new : ParticipantManager := ⟨[], [], none⟩

def set_local_sid (m : ParticipantManager) (sid : String) : ParticipantManager :=
  { m with local_sid := some sid }

/-- `add_participant`: push only if no participant with the same sid exists. -/
def add_participant (m : ParticipantManager) (info : ParticipantInfo) : ParticipantManager :=
  if m.participants.any (fun p => p.sid == info.sid) then m
  else { m with participants := m.participants ++ [info] }

/-- `remove_participant`: retain participants with a different sid and drop
the sid from the active-speaker list. -/
def remove_participant (m : ParticipantManager) (sid : String) : ParticipantManager :=
  { m with
    participants := m.participants.filter (fun p => p.sid != sid)
    active_speakers := m.active_speakers.filter (fun s => s != sid) }

def participant (m : ParticipantManager) (sid : String) : Option ParticipantInfo :=
  m.participants.find? (fun p => p.sid == sid)

/-- `iter_mut().find(...)` followed by a field mutation: update the first
participant whose sid matches. -/
def update_first (sid : String) (f : ParticipantInfo → ParticipantInfo) :
    List ParticipantInfo → List ParticipantInfo
  | [] => []
  | p :: rest =>
    if p.sid == sid then f p :: rest else p :: update_first sid f rest

/-- Effect of mutating through `participant_mut(sid)` with field update `f`. -/
def modify_participant (m : ParticipantManager) (sid : String)
    (f : ParticipantInfo → ParticipantInfo) : ParticipantManager :=
  { m with participants := update_first sid f m.participants }

/-- `set_active_speakers` stores the given sids verbatim. -/
def set_active_speakers (m : ParticipantManager) (sids : List String) : ParticipantManager :=
  { m with active_speakers := sids }

def participant_count (m : ParticipantManager) : Nat := m.participants.length

def clear (_m : ParticipantManager) : ParticipantManager := new

/-- The sids currently present in the directory. -/
def sids (m : ParticipantManager) : List String := m.participants.map (·.sid)

/-- Spec invariant: active-speaker set ⊆ current participant sids. -/
def SpeakersSubset (m : ParticipantManager) : Prop :=
  ∀ s ∈ m.active_speakers, s ∈ m.sids

instance (m : ParticipantManager) : Decidable (SpeakersSubset m) := by
  unfold SpeakersSubset; infer_instance

end ParticipantManager

/-! ## EventEmitter (src/crates/visio-core/src/events.rs)

`emit` iterates the registered listeners in registration order and calls
`on_event` on each; there is no `catch_unwind`, so a callback failure
unwinds out of `emit` (and out of the event-loop task that called it).
A listener is modelled by an id and whether its callback fails. -/

structure Listener where
  id : Nat
  fails : Bool
deriving DecidableEq

/-- The ids of the listeners whose callbacks `emit` actually invokes for one
event: dispatch proceeds in order and stops after the first callback that
fails (its own invocation does happen; the unwind then escapes `emit`). -/
def emit_invoked : List Listener → List Nat
  | [] => []
  | l :: rest => if l.fails then [l.id] else l.id :: emit_invoked rest

/-- Whether a callback failure escapes `emit` (aborting the caller). -/
def emit_escaped (ls : List Listener) : Bool := ls.any (·.fails)

/-! ## ChatService unread counter (src/crates/visio-core/src/chat.rs) -/

structure ChatServiceState where
  messages : List ChatMessage
  unread_count : Nat
  chat_open : Bool
deriving DecidableEq

namespace ChatServiceState

def new : ChatServiceState := ⟨[], 0, false⟩

/-- `handle_incoming`: push the message, emit `ChatMessageReceived`; then,
only if the chat panel is closed, increment the unread counter and emit
`UnreadCountChanged` with the new count. -/
def handle_incoming (s : ChatServiceState) (msg : ChatMessage) :
    ChatServiceState × List VisioEvent :=
  let s1 := { s with messages := s.messages ++ [msg] }
  if s.chat_open then
    (s1, [VisioEvent.ChatMessageReceived msg])
  else
    ({ s1 with unread_count := s.unread_count + 1 },
     [VisioEvent.ChatMessageReceived msg,
      VisioEvent.UnreadCountChanged (s.unread_count + 1)])

/-- `clear` (on disconnect): drop all messages, reset the unread counter. -/
def clear (s : ChatServiceState) : ChatServiceState :=
  { s with messages := [], unread_count := 0 }

/-- `set_chat_open`: store the flag; when opening, reset the counter to 0
and emit `UnreadCountChanged(0)`. -/
def set_chat_open (s : ChatServiceState) (o : Bool) :
    ChatServiceState × List VisioEvent :=
  if o then
    ({ s with chat_open := o, unread_count := 0 }, [VisioEvent.UnreadCountChanged 0])
  else
    ({ s with chat_open := o }, [])

def unread (s : ChatServiceState) : Nat := s.unread_count

end ChatServiceState

/-! ## HandRaiseManager (src/crates/visio-core/src/hand_raise.rs)

The raise queue is a `BTreeMap<i64, String>` (timestamp → participant sid),
modelled as an association list kept in strictly ascending key order;
`btInsert` mirrors `BTreeMap::insert` (replacing the value at an existing
key). The pending auto-lower timer (`auto_lower_handle : Option JoinHandle`)
is modelled by a `Bool`. The local participant sid (obtained from
`room.local_participant()` in the source) is carried in the state. -/

abbrev Hands := List (Int × String)

/-- `BTreeMap::insert` on the ascending association list: place the entry
before the first strictly larger key, replacing an entry with an equal key. -/
def btInsert (k : Int) (v : String) : Hands → Hands
  | [] => [(k, v)]
  | (k1, v1) :: rest =>
    if k < k1 then (k, v) :: (k1, v1) :: rest
    else if k = k1 then (k, v) :: rest
    else (k1, v1) :: btInsert k v rest

/-- The values in ascending key order (`hands.values()`). -/
def handsValues (h : Hands) : List String := h.map (·.2)

/-- The keys in ascending order. -/
def handsKeys (h : Hands) : List Int := h.map (·.1)

/-- `Iterator::position`: index of the first element equal to `sid`. -/
def posFirst (sid : String) : List String → Option Nat
  | [] => none
  | v :: rest => if v == sid then some 0 else (posFirst sid rest).map (· + 1)

/-- `hands.values().position(|s| s == sid).unwrap_or(0) as u32 + 1`. -/
def position1 (sid : String) (h : Hands) : Nat :=
  (posFirst sid (handsValues h)).getD 0 + 1

structure HandRaiseState where
  local_sid : String
  raised_hands : Hands
  auto_lower_pending : Bool
deriving DecidableEq

namespace HandRaiseState

def init (local_sid : String) : HandRaiseState := ⟨local_sid, [], false⟩

/-- `raise_hand`: insert `(epoch_ms, local_sid)` unconditionally, compute the
1-based position of the first occurrence of the local sid, and emit
`HandRaisedChanged(local_sid, true, position)`. The timestamp (epoch
milliseconds of `Utc::now()`) is a parameter. -/
def raise_hand (ts : Int) (s : HandRaiseState) : HandRaiseState × List VisioEvent :=
  let hands := btInsert ts s.local_sid s.raised_hands
  let pos := position1 s.local_sid hands
  ({ s with raised_hands := hands },
   [VisioEvent.HandRaisedChanged s.local_sid true pos])

/-- `lower_hand`: retain entries of other sids, emit
`HandRaisedChanged(local_sid, false, 0)`, and abort any pending auto-lower
timer (`auto_lower_handle.take()` + `abort`). -/
def lower_hand (s : HandRaiseState) : HandRaiseState × List VisioEvent :=
  ({ s with
      raised_hands := s.raised_hands.filter (fun p => p.2 != s.local_sid)
      auto_lower_pending := false },
   [VisioEvent.HandRaisedChanged s.local_sid false 0])

/-- `is_hand_raised`: any queue entry carries the local sid. -/
def is_hand_raised (s : HandRaiseState) : Bool :=
  s.raised_hands.any (fun p => p.2 == s.local_sid)

/-- Accumulate a decimal value; fail on the first non-digit. -/
def digitsVal (acc : Nat) : List Char → Option Nat
  | [] => some acc
  | c :: rest =>
    if c.isDigit then digitsVal (acc * 10 + (c.toNat - 48)) rest else none

/-- `str::parse::<i64>`: optional sign, then at least one decimal digit
(overflow ignored; the timestamps involved are far below the i64 range). -/
def parse_i64 (v : String) : Option Int :=
  match v.data with
  | [] => none
  | '-' :: rest =>
    (match rest with
     | [] => none
     | _ => (digitsVal 0 rest).map (fun n => -(n : Int)))
  | '+' :: rest =>
    (match rest with
     | [] => none
     | _ => (digitsVal 0 rest).map (fun n => (n : Int)))
  | l => (digitsVal 0 l).map (fun n => (n : Int))

/-- Timestamp ingestion: `chrono::DateTime::parse_from_rfc3339` (the external
parser is the parameter `parseIso`), falling back to an integer parse,
falling back to 0. -/
def parse_timestamp (parseIso : String → Option Int) (v : String) : Int :=
  match parseIso v with
  | some ms => ms
  | none => (parse_i64 v).getD 0

/-- `handle_participant_attributes`: read the `handRaisedAt` attribute
(default empty); non-empty means raised. On raise, insert only when the sid
has no existing entry, then emit the 1-based position; on lower, retain the
other sids and emit position 0. -/
def handle_participant_attributes (parseIso : String → Option Int)
    (participant_sid : String) (attributes : List (String × String))
    (s : HandRaiseState) : HandRaiseState × List VisioEvent :=
  let value := (attributes.lookup "handRaisedAt").getD ""
  let is_raised := value ≠ ""
  if is_raised then
    let ts := parse_timestamp parseIso value
    let hands :=
      if s.raised_hands.any (fun p => p.2 == participant_sid) then s.raised_hands
      else btInsert ts participant_sid s.raised_hands
    let pos := position1 participant_sid hands
    ({ s with raised_hands := hands },
     [VisioEvent.HandRaisedChanged participant_sid true pos])
  else
    ({ s with raised_hands := s.raised_hands.filter (fun p => p.2 != participant_sid) },
     [VisioEvent.HandRaisedChanged participant_sid false 0])

/-- The body of the task spawned by `start_auto_lower`: abort any existing
timer; then, if the local participant is among the active speakers and its
hand is raised, arm a fresh 3-second timer. -/
def start_auto_lower (active_speakers : List String) (s : HandRaiseState) :
    HandRaiseState :=
  let s1 := { s with auto_lower_pending := false }
  if active_speakers.contains s.local_sid then
    if s1.is_hand_raised then { s1 with auto_lower_pending := true } else s1
  else s1

/-- The body of the armed timer once the 3-second sleep elapses: re-read the
live queue; only if the local hand is still raised, remove it and emit one
`HandRaisedChanged(local_sid, false, 0)`; otherwise do nothing. -/
def auto_lower_fire (s : HandRaiseState) : HandRaiseState × List VisioEvent :=
  if s.raised_hands.any (fun p => p.2 == s.local_sid) then
    ({ s with raised_hands := s.raised_hands.filter (fun p => p.2 != s.local_sid) },
     [VisioEvent.HandRaisedChanged s.local_sid false 0])
  else (s, [])

/-- `clear` (on disconnect): empty the queue, abort any pending timer. -/
def clear (s : HandRaiseState) : HandRaiseState :=
  { s with raised_hands := [], auto_lower_pending := false }

end HandRaiseState

/-! ## Track renderer registry (src/crates/visio-video/src/lib.rs)

The global `RENDERERS: HashMap<String, TrackRenderer>` holds the active
renderers; each `TrackRenderer` owns a `watch` cancellation channel and the
spawned frame-loop task. The opaque surface pointer is modelled as a `Nat`.
To observe the cancellation signal of a renderer after it leaves the map
(the `watch::Sender` lives on in the removed struct until the frame loop
exits), removed renderers are kept in a `stopped` list. -/

structure TrackRenderer where
  track_sid : String
  surface : Nat
  cancel : Bool
deriving DecidableEq

structure RendererRegistry where
  active : List TrackRenderer
  stopped : List TrackRenderer
deriving DecidableEq

namespace RendererRegistry

def empty : RendererRegistry := ⟨[], []⟩

def activeSids (reg : RendererRegistry) : List String :=
  reg.active.map (·.track_sid)

/-- `stop_track_renderer`: if the map holds an entry for the sid, remove it
and send `true` on its cancellation channel; otherwise do nothing. -/
def stop_track_renderer (track_sid : String) (reg : RendererRegistry) :
    RendererRegistry :=
  match reg.active.find? (fun r => r.track_sid == track_sid) with
  | none => reg
  | some r =>
    { active := reg.active.filter (fun x => x.track_sid != track_sid)
      stopped := reg.stopped ++ [{ r with cancel := true }] }

/-- `start_track_renderer`: stop any existing renderer for the sid first,
then create a fresh (uncancelled) channel, spawn the frame loop on the
given surface, and insert the new entry. -/
def start_track_renderer (track_sid : String) (surface : Nat)
    (reg : RendererRegistry) : RendererRegistry :=
  let reg1 := stop_track_renderer track_sid reg
  { reg1 with active := reg1.active ++ [⟨track_sid, surface, false⟩] }

/-- At most one active renderer per track sid. -/
def AtMostOnePerSid (reg : RendererRegistry) : Prop :=
  reg.activeSids.Nodup

/-- The caller-visible operations on the registry. -/
inductive RegOp
  | start (track_sid : String) (surface : Nat)
  | stop (track_sid : String)
deriving DecidableEq

def applyOp (reg : RendererRegistry) : RegOp → RendererRegistry
  | RegOp.start sid surface => start_track_renderer sid surface reg
  | RegOp.stop sid => stop_track_renderer sid reg

def applyOps (reg : RendererRegistry) (ops : List RegOp) : RendererRegistry :=
  ops.foldl applyOp reg

end RendererRegistry

/-! ## Room event loop (src/crates/visio-core/src/room.rs)

`RoomManager::event_loop` is a single sequential consumer of the transport
event stream. External payloads arrive pre-converted: a remote participant
is carried as the data `remote_participant_to_info` reads from it, the
legacy chat payload as the result of the UTF-8 + JSON parse, a text stream
as the result of `reader.take()` + `read_all()`. The audio playout buffer
is a list of samples; spawned audio playout tasks are tracked by track sid. -/

/-- The fields of a `RemoteParticipant` that `remote_participant_to_info`
reads (`name` empty ⇒ `None`; audio mute from publications). -/
structure RemoteParticipant where
  sid : String
  identity : String
  name : String
  audio_muted : Bool
deriving DecidableEq

/-- `RoomManager::remote_participant_to_info`: video flags start `false`
(video state is set exclusively by TrackSubscribed events). -/
def remote_participant_to_info (p : RemoteParticipant) : ParticipantInfo :=
  { sid := p.sid
    identity := p.identity
    name := if p.name = "" then none else some p.name
    is_muted := p.audio_muted
    has_video := false
    video_track_sid := none
    connection_quality := ConnectionQuality.Good }

/-- Result of `serde_json::from_str::<Value>` on a legacy chat payload, read
through the accessors the handler uses: `json[ .. ].as_bool / as_str /
as_u64` (`none` models a missing field or one of the wrong type). -/
structure LegacyEnvelope where
  ignoreLegacy : Option Bool
  msg_id : Option String
  message : Option String
  timestamp : Option Nat
deriving DecidableEq

/-- `RoomEvent`s handled by the loop. `TextStreamOpened` carries the stream
id / timestamp from `reader.info()` and `read_result = none` when the reader
was already taken or `read_all` failed. `DataReceived` carries
`payload = none` when the bytes are not valid UTF-8 JSON. -/
inductive RoomEvt
  | Connected
  | Reconnecting
  | Reconnected
  | Disconnected
  | ParticipantConnected (p : RemoteParticipant)
  | ParticipantDisconnected (p : RemoteParticipant)
  | TrackSubscribed (track_sid : String) (p : RemoteParticipant)
      (kind : TrackKind) (source : TrackSource)
  | TrackUnsubscribed (track_sid : String) (p : RemoteParticipant) (kind : TrackKind)
  | TrackMuted (p : RemoteParticipant) (source : TrackSource)
  | TrackUnmuted (p : RemoteParticipant) (source : TrackSource)
  | ActiveSpeakersChanged (sids : List String)
  | ParticipantAttributesChanged (p : RemoteParticipant)
      (changed_attributes : List (String × String))
  | ConnectionQualityChanged (p : RemoteParticipant) (quality : ConnectionQuality)
  | ChatMessageEvt (msg_id : String) (text : String) (timestamp_ms : Nat)
      (sender : Option RemoteParticipant)
  | TextStreamOpened (topic : String) (identity : String) (stream_id : String)
      (timestamp_ms : Nat) (sender_name : Option String) (read_result : Option String)
  | DataReceived (topic : Option String) (payload : Option LegacyEnvelope)
      (sender : Option RemoteParticipant)
  | OtherEvt
deriving DecidableEq

/-- The loop-local and shared state `event_loop` reads and writes. -/
structure RoomState where
  connection_state : ConnectionState
  reconnect_attempt : Nat
  participants : ParticipantManager
  subscribed_tracks : List String
  messages : List ChatMessage
  playout_samples : List Int
  hand_raise : Option HandRaiseState
  audio_stream_tasks : List String
  room_present : Bool
deriving DecidableEq

namespace RoomState

/-- `HashMap::insert` on the subscribed-track sid table. -/
def tracksInsert (sid : String) (tracks : List String) : List String :=
  if tracks.contains sid then tracks else tracks ++ [sid]

end RoomState

/-- One iteration of the `while let Some(event) = events.recv()` body.
`parseIso` is the external rfc3339 parser used by the hand-raise handler.
Returns the new state, the application events emitted during the iteration,
and whether the loop continues (`false` exactly on `break`). -/
def process_event (parseIso : String → Option Int) (s : RoomState) :
    RoomEvt → RoomState × List VisioEvent × Bool
  | RoomEvt.Connected =>
    ({ s with reconnect_attempt := 0, connection_state := ConnectionState.Connected },
     [VisioEvent.ConnectionStateChanged ConnectionState.Connected], true)
  | RoomEvt.Reconnecting =>
    let n := s.reconnect_attempt + 1
    ({ s with
        reconnect_attempt := n
        connection_state := ConnectionState.Reconnecting n },
     [VisioEvent.ConnectionStateChanged (ConnectionState.Reconnecting n)], true)
  | RoomEvt.Reconnected =>
    ({ s with reconnect_attempt := 0, connection_state := ConnectionState.Connected },
     [VisioEvent.ConnectionStateChanged ConnectionState.Connected], true)
  | RoomEvt.Disconnected =>
    ({ s with
        connection_state := ConnectionState.Disconnected
        participants := s.participants.clear
        subscribed_tracks := []
        messages := []
        playout_samples := []
        hand_raise := none
        audio_stream_tasks := []
        room_present := false },
     [VisioEvent.ConnectionStateChanged ConnectionState.Disconnected], false)
  | RoomEvt.ParticipantConnected p =>
    let info := remote_participant_to_info p
    ({ s with participants := s.participants.add_participant info },
     [VisioEvent.ParticipantJoined info], true)
  | RoomEvt.ParticipantDisconnected p =>
    ({ s with participants := s.participants.remove_participant p.sid },
     [VisioEvent.ParticipantLeft p.sid], true)
  | RoomEvt.TrackSubscribed track_sid p kind source =>
    let s1 :=
      if kind = TrackKind.Video then
        { s with
            participants := s.participants.modify_participant p.sid
              (fun q => { q with has_video := true, video_track_sid := some track_sid })
            subscribed_tracks := RoomState.tracksInsert track_sid s.subscribed_tracks }
      else
        { s with audio_stream_tasks := RoomState.tracksInsert track_sid s.audio_stream_tasks }
    (s1,
     [VisioEvent.TrackSubscribed ⟨track_sid, p.sid, kind, source⟩], true)
  | RoomEvt.TrackUnsubscribed track_sid p kind =>
    let s1 :=
      if kind = TrackKind.Video then
        { s with
            participants := s.participants.modify_participant p.sid
              (fun q => { q with has_video := false, video_track_sid := none })
            subscribed_tracks := s.subscribed_tracks.filter (fun t => t != track_sid) }
      else
        { s with audio_stream_tasks := s.audio_stream_tasks.filter (fun t => t != track_sid) }
    (s1, [VisioEvent.TrackUnsubscribed track_sid], true)
  | RoomEvt.TrackMuted p source =>
    let s1 :=
      if source = TrackSource.Microphone then
        { s with participants :=
            s.participants.modify_participant p.sid (fun q => { q with is_muted := true }) }
      else s
    (s1, [VisioEvent.TrackMuted p.sid source], true)
  | RoomEvt.TrackUnmuted p source =>
    let s1 :=
      if source = TrackSource.Microphone then
        { s with participants :=
            s.participants.modify_participant p.sid (fun q => { q with is_muted := false }) }
      else s
    (s1, [VisioEvent.TrackUnmuted p.sid source], true)
  | RoomEvt.ActiveSpeakersChanged sids =>
    let s1 := { s with participants := s.participants.set_active_speakers sids }
    let s2 := { s1 with hand_raise := s1.hand_raise.map (·.start_auto_lower sids) }
    (s2, [VisioEvent.ActiveSpeakersChanged sids], true)
  | RoomEvt.ParticipantAttributesChanged p changed_attributes =>
    (match s.hand_raise with
     | none => (s, [], true)
     | some hm =>
       let (hm1, evs) := hm.handle_participant_attributes parseIso p.sid changed_attributes
       ({ s with hand_raise := some hm1 }, evs, true))
  | RoomEvt.ConnectionQualityChanged p quality =>
    ({ s with participants :=
        (s.participants.modify_participant p.sid
          (fun q => { q with connection_quality := quality })) },
     [VisioEvent.ConnectionQualityChanged p.sid quality], true)
  | RoomEvt.ChatMessageEvt msg_id text timestamp_ms sender =>
    let msg : ChatMessage :=
      { id := msg_id
        sender_sid := (sender.map (·.sid)).getD ""
        sender_name := (sender.map (·.name)).getD ""
        text := text
        timestamp_ms := timestamp_ms }
    ({ s with messages := s.messages ++ [msg] },
     [VisioEvent.ChatMessageReceived msg], true)
  | RoomEvt.TextStreamOpened topic identity stream_id timestamp_ms sender_name read_result =>
    if topic = "lk.chat" then
      match read_result with
      | some text =>
        let msg : ChatMessage :=
          { id := stream_id
            sender_sid := identity
            sender_name := sender_name.getD identity
            text := text
            timestamp_ms := timestamp_ms }
        ({ s with messages := s.messages ++ [msg] },
         [VisioEvent.ChatMessageReceived msg], true)
      | none => (s, [], true)
    else (s, [], true)
  | RoomEvt.DataReceived topic payload sender =>
    if topic.getD "none" = "lk-chat-topic" then
      match payload with
      | some json =>
        if json.ignoreLegacy = some true then (s, [], true)
        else
          let msg : ChatMessage :=
            { id := json.msg_id.getD ""
              sender_sid := (sender.map (·.sid)).getD ""
              sender_name := (sender.map (·.name)).getD ""
              text := json.message.getD ""
              timestamp_ms := json.timestamp.getD 0 }
          if msg.text ≠ "" then
            ({ s with messages := s.messages ++ [msg] },
             [VisioEvent.ChatMessageReceived msg], true)
          else (s, [], true)
      | none => (s, [], true)
    else (s, [], true)
  | RoomEvt.OtherEvt => (s, [], true)

/-- The full loop: consume events in order until the stream ends or an
iteration breaks (`Disconnected`). -/
def event_loop (parseIso : String → Option Int) (s : RoomState) :
    List RoomEvt → RoomState × List VisioEvent
  | [] => (s, [])
  | e :: rest =>
    let (s1, evs, cont) := process_event parseIso s e
    if cont then
      let (s2, evs2) := event_loop parseIso s1 rest
      (s2, evs ++ evs2)
    else (s1, evs)

/-! ## Platform listener (src/crates/visio-desktop/src/lib.rs)

`DesktopEventListener::on_event` is the only code that stops a renderer in
reaction to a room event: its `TrackUnsubscribed` arm calls
`stop_track_renderer` synchronously; its `TrackSubscribed` arm only spawns
an async task (no synchronous registry effect); the remaining arms never
touch the registry. `visio-core` itself has no dependency on `visio-video`,
so `process_event` leaves the registry untouched. -/

def desktop_on_event (reg : RendererRegistry) : VisioEvent → RendererRegistry
  | VisioEvent.TrackUnsubscribed track_sid =>
    RendererRegistry.stop_track_renderer track_sid reg
  | _ => reg

/-- Synchronous registry effect of `emitter.emit` dispatching the events of
one loop iteration to the registered desktop listener. -/
def desktop_dispatch (reg : RendererRegistry) (evs : List VisioEvent) :
    RendererRegistry :=
  evs.foldl desktop_on_event reg

/-- One event-loop iteration together with its synchronous listener
dispatch. `desktopListenrRegistered` states whether the registered listener
set contains the desktop auto-stop listener (true in visio-desktop, false in
visio-ffi, where renderers are stopped only by explicit platform calls);
`process_event` itself never touches the registry (visio-core does not
depend on visio-video). -/
def loop_iteration (parseIso : String → Option Int) (desktopListenrRegistered : Bool)
    (s : RoomState) (reg : RendererRegistry) (e : RoomEvt) :
    RoomState × RendererRegistry × List VisioEvent × Bool :=
  let (s1, evs, cont) := process_event parseIso s e
  (s1, if desktopListenrRegistered then desktop_dispatch reg evs else reg, evs, cont)

/-! ## Operation alphabets used by the invariant claims -/

/-- The `ParticipantManager` operations driven by the event loop. -/
inductive PMOp
  | add (info : ParticipantInfo)
  | remove (sid : String)
  | setSpeakers (sids : List String)
  | modify (sid : String) (f : ParticipantInfo → ParticipantInfo)
  | setLocal (sid : String)
  | clearOp

def PMOp.apply (m : ParticipantManager) : PMOp → ParticipantManager
  | PMOp.add info => m.add_participant info
  | PMOp.remove sid => m.remove_participant sid
  | PMOp.setSpeakers sids => m.set_active_speakers sids
  | PMOp.modify sid f => m.modify_participant sid f
  | PMOp.setLocal sid => m.set_local_sid sid
  | PMOp.clearOp => m.clear

/-- Side condition under which an operation keeps the speaker invariant:
`set_active_speakers` must be fed sids of current directory members (the
event loop feeds it the transport-reported speaker sids verbatim), and
`participant_mut`-style updates must not rewrite the sid field (no event
handler does). -/
def PMOp.Guard (m : ParticipantManager) : PMOp → Prop
  | PMOp.setSpeakers sids => ∀ x ∈ sids, x ∈ m.sids
  | PMOp.modify _ f => ∀ p, (f p).sid = p.sid
  | _ => True

/-! ## Concrete inputs used by counterexamples and witnesses -/

/-- External rfc3339 parser instance that recognises nothing, exercising the
integer fallback of `parse_timestamp`. -/
def parse0 : String → Option Int := fun _ => none

/-- A remote participant used in concrete scenarios. -/
def pRemote : RemoteParticipant :=
  { sid := "p1", identity := "id1", name := "Alice", audio_muted := false }

/-- A small connected room state: one remote participant whose video track
"t1" is subscribed, one chat message, a raised local hand. -/
def sampleRoom : RoomState :=
  { connection_state := ConnectionState.Connected
    reconnect_attempt := 0
    participants :=
      (ParticipantManager.new.set_local_sid "local").add_participant
        { remote_participant_to_info pRemote with
            has_video := true, video_track_sid := some "t1" }
    subscribed_tracks := ["t1"]
    messages := [{ id := "m1", sender_sid := "p1", sender_name := "Alice",
                   text := "hi", timestamp_ms := 5 }]
    playout_samples := [3]
    hand_raise := some { local_sid := "local", raised_hands := [(10, "local")],
                         auto_lower_pending := false }
    audio_stream_tasks := ["a1"]
    room_present := true }

/-- A registry holding one active renderer for track "t1" on surface 7. -/
def sampleReg : RendererRegistry :=
  RendererRegistry.start_track_renderer "t1" 7 RendererRegistry.empty

/-- A legacy chat envelope that parses as JSON but carries no fields at all
(e.g. the payload `\x7b\x7d`): `ignoreLegacy` absent, `message` absent. -/
def emptyEnvelope : LegacyEnvelope :=
  { ignoreLegacy := none, msg_id := none, message := none, timestamp := none }

/-- The `ChatMessage` the legacy `DataReceived` handler builds from a parsed
envelope and the sending participant. -/
def legacy_chat_message (env : LegacyEnvelope) (sender : Option RemoteParticipant) :
    ChatMessage :=
  { id := env.msg_id.getD ""
    sender_sid := (sender.map (·.sid)).getD ""
    sender_name := (sender.map (·.name)).getD ""
    text := env.message.getD ""
    timestamp_ms := env.timestamp.getD 0 }

/-- The `ChatMessage` the `TextStreamOpened` task builds after a successful
`read_all` (sender name looked up by identity, falling back to identity). -/
def stream_chat_message (identity stream_id : String) (timestamp_ms : Nat)
    (sender_name : Option String) (text : String) : ChatMessage :=
  { id := stream_id
    sender_sid := identity
    sender_name := sender_name.getD identity
    text := text
    timestamp_ms := timestamp_ms }

/-- Hand-raise scenario states: A, B, C raise in order (timestamps 1, 2, 3),
then B lowers, then B re-raises at timestamp 4, all via
`handle_participant_attributes` with integer-fallback timestamps. -/
def hrA : HandRaiseState × List VisioEvent :=
  (HandRaiseState.init "local").handle_participant_attributes parse0 "A"
    [("handRaisedAt", "1")]

def hrB : HandRaiseState × List VisioEvent :=
  hrA.1.handle_participant_attributes parse0 "B" [("handRaisedAt", "2")]

def hrC : HandRaiseState × List VisioEvent :=
  hrB.1.handle_participant_attributes parse0 "C" [("handRaisedAt", "3")]

def hrLowerB : HandRaiseState × List VisioEvent :=
  hrC.1.handle_participant_attributes parse0 "B" [("handRaisedAt", "")]

def hrReraiseB : HandRaiseState × List VisioEvent :=
  hrLowerB.1.handle_participant_attributes parse0 "B" [("handRaisedAt", "4")]

/-- Number of entries with key strictly below `ts`: the 1-based rank among
entries ordered by ascending timestamp is this count plus one. -/
def rankBelow (ts : Int) (h : Hands) : Nat :=
  h.countP (fun p => decide (p.1 < ts))

/-- Strictly-ascending key order, the `BTreeMap` iteration invariant. -/
def HandsSorted (h : Hands) : Prop :=
  List.Pairwise (fun a b : Int × String => a.1 < b.1) h

instance (h : Hands) : Decidable (HandsSorted h) := by
  unfold HandsSorted; infer_instance

instance (reg : RendererRegistry) : Decidable reg.AtMostOnePerSid := by
  unfold RendererRegistry.AtMostOnePerSid; infer_instance

/-! ## Helper lemmas -/

theorem any_filter_ne_eq_false (h : Hands) (sid : String) :
    (h.filter (fun p => p.2 != sid)).any (fun p => p.2 == sid) = false := by
  simp only [Bool.eq_false_iff, ne_eq, List.any_eq_true, List.mem_filter,
    bne_iff_ne, beq_iff_eq]
  rintro ⟨x, ⟨-, hx2⟩, hx3⟩
  exact hx2 hx3

theorem values_filter_nodup (h : Hands) (q : Int × String → Bool)
    (hn : (handsValues h).Nodup) : (handsValues (h.filter q)).Nodup := by
  unfold handsValues at hn ⊢
  exact hn.sublist ((List.filter_sublist h).map _)

theorem btInsert_values_perm (k : Int) (v : String) (h : Hands)
    (hk : k ∉ handsKeys h) :
    (handsValues (btInsert k v h)).Perm (v :: handsValues h) := by
  induction h with
  | nil => simp [btInsert, handsValues]
  | cons a t ih =>
    have hka : k ≠ a.1 := by
      intro hcontra
      exact hk (by simp [handsKeys, hcontra])
    have hkt : k ∉ handsKeys t := by
      intro hcontra
      exact hk (by simp [handsKeys] at hcontra ⊢; exact Or.inr hcontra)
    rcases lt_trichotomy k a.1 with hlt | heq | hgt
    · simp [btInsert, hlt, handsValues]
    · exact absurd heq hka
    · have h1 : ¬ k < a.1 := not_lt.mpr (le_of_lt hgt)
      simp only [btInsert, h1, if_false, hka, if_false, handsValues, List.map_cons]
      exact (List.Perm.cons a.2 (ih hkt)).trans (List.Perm.swap v a.2 _)

theorem posFirst_btInsert (ts : Int) (sid : String) (h : Hands)
    (hs : HandsSorted h) (hv : sid ∉ handsValues h) :
    posFirst sid (handsValues (btInsert ts sid h)) = some (rankBelow ts h) := by
  induction h with
  | nil => simp [btInsert, handsValues, posFirst, rankBelow]
  | cons a t ih =>
    have hva : a.2 ≠ sid := by
      intro hcontra
      exact hv (by simp [handsValues, hcontra])
    have hvt : sid ∉ handsValues t := by
      intro hcontra
      exact hv (by simp [handsValues] at hcontra ⊢; exact Or.inr hcontra)
    have hst : HandsSorted t := hs.sublist (List.sublist_cons_self a t)
    have hrest : ∀ b ∈ t, a.1 < b.1 := fun b hb => (List.pairwise_cons.mp hs).1 b hb
    rcases lt_trichotomy ts a.1 with hlt | heq | hgt
    · have hnone : rankBelow ts (a :: t) = 0 := by
        unfold rankBelow
        rw [List.countP_eq_zero]
        intro b hb
        rcases List.mem_cons.mp hb with hb1 | hb2
        · subst hb1; simpa using not_lt.mpr (le_of_lt hlt)
        · simpa using not_lt.mpr (le_of_lt (lt_trans hlt (hrest b hb2)))
      simp [btInsert, hlt, handsValues, posFirst, hnone]
    · have hnone : rankBelow ts (a :: t) = 0 := by
        unfold rankBelow
        rw [List.countP_eq_zero]
        intro b hb
        rcases List.mem_cons.mp hb with hb1 | hb2
        · subst hb1; simpa using not_lt.mpr (le_of_eq heq)
        · simpa using
            not_lt.mpr (le_of_lt (lt_of_le_of_lt (le_of_eq heq) (hrest b hb2)))
      have h1 : ¬ ts < a.1 := by rw [heq]; exact lt_irrefl _
      rw [show btInsert ts sid (a :: t) = (ts, sid) :: t by
        simp [btInsert, h1, heq]]
      simp [handsValues, posFirst, hnone]
    · have h1 : ¬ ts < a.1 := not_lt.mpr (le_of_lt hgt)
      have h2 : ts ≠ a.1 := ne_of_gt hgt
      have hcount : rankBelow ts (a :: t) = rankBelow ts t + 1 := by
        unfold rankBelow
        rw [List.countP_cons]
        simp [hgt, Nat.add_comm]
      simp only [btInsert, h1, if_false, h2, if_false, handsValues, List.map_cons,
        posFirst, beq_iff_eq, hva, if_false, hcount]
      rw [show handsValues (btInsert ts sid t) = (btInsert ts sid t).map (·.2) from rfl] at ih
      rw [ih hst hvt]
      rfl

theorem update_first_sid_map (sid : String) (f : ParticipantInfo → ParticipantInfo)
    (hf : ∀ p, (f p).sid = p.sid) (l : List ParticipantInfo) :
    (ParticipantManager.update_first sid f l).map (·.sid) = l.map (·.sid) := by
  induction l with
  | nil => rfl
  | cons a t ih =>
    by_cases hx : a.sid = sid
    · simp [ParticipantManager.update_first, hx, hf]
    · simp [ParticipantManager.update_first, hx, ih]

theorem find_update_first (sid : String) (f : ParticipantInfo → ParticipantInfo)
    (hf : ∀ p, (f p).sid = p.sid) (l : List ParticipantInfo) :
    (ParticipantManager.update_first sid f l).find? (fun q => q.sid == sid)
      = (l.find? (fun q => q.sid == sid)).map f := by
  induction l with
  | nil => rfl
  | cons a t ih =>
    by_cases hx : a.sid = sid
    · rw [ParticipantManager.update_first, if_pos (by simp [hx]),
        List.find?_cons_of_pos _ (by simp [hf, hx]),
        List.find?_cons_of_pos _ (by simp [hx])]
      rfl
    · rw [ParticipantManager.update_first, if_neg (by simp [hx]),
        List.find?_cons_of_neg _ (by simp [hx]),
        List.find?_cons_of_neg _ (by simp [hx]), ih]

theorem stop_not_mem_activeSids (sid : String) (reg : RendererRegistry) :
    sid ∉ (RendererRegistry.stop_track_renderer sid reg).activeSids := by
  unfold RendererRegistry.stop_track_renderer
  cases hfind : reg.active.find? (fun r => r.track_sid == sid) with
  | none =>
    intro hmem
    rcases List.mem_map.mp hmem with ⟨r, hr, hrs⟩
    have := List.find?_eq_none.mp hfind r hr
    simp [hrs] at this
  | some r =>
    intro hmem
    rcases List.mem_map.mp hmem with ⟨x, hx, hxs⟩
    have := (List.mem_filter.mp hx).2
    simp [hxs] at this

theorem stop_preserves_nodup (sid : String) (reg : RendererRegistry)
    (h : reg.AtMostOnePerSid) :
    (RendererRegistry.stop_track_renderer sid reg).AtMostOnePerSid := by
  unfold RendererRegistry.stop_track_renderer
  cases hfind : reg.active.find? (fun r => r.track_sid == sid) with
  | none => exact h
  | some r =>
    unfold RendererRegistry.AtMostOnePerSid RendererRegistry.activeSids at h ⊢
    exact h.sublist ((List.filter_sublist reg.active).map _)

theorem start_preserves_nodup (sid : String) (surface : Nat) (reg : RendererRegistry)
    (h : reg.AtMostOnePerSid) :
    (RendererRegistry.start_track_renderer sid surface reg).AtMostOnePerSid := by
  have h1 := stop_preserves_nodup sid reg h
  have h2 := stop_not_mem_activeSids sid reg
  unfold RendererRegistry.start_track_renderer
  unfold RendererRegistry.AtMostOnePerSid RendererRegistry.activeSids at h1 h2 ⊢
  simp only [List.map_append, List.map_cons, List.map_nil]
  rw [List.nodup_append]
  exact ⟨h1, List.nodup_singleton _, by simpa using h2⟩

theorem applyOps_preserves_nodup (ops : List RendererRegistry.RegOp)
    (reg : RendererRegistry) (h : reg.AtMostOnePerSid) :
    (RendererRegistry.applyOps reg ops).AtMostOnePerSid := by
  induction ops generalizing reg with
  | nil => exact h
  | cons op t ih =>
    unfold RendererRegistry.applyOps at ih ⊢
    rw [List.foldl_cons]
    apply ih
    cases op with
    | start sid surface => exact start_preserves_nodup sid surface reg h
    | stop sid => exact stop_preserves_nodup sid reg h

theorem stop_eq_of_not_mem (sid : String) (reg : RendererRegistry)
    (h : sid ∉ reg.activeSids) :
    RendererRegistry.stop_track_renderer sid reg = reg := by
  unfold RendererRegistry.stop_track_renderer
  have hfind : reg.active.find? (fun r => r.track_sid == sid) = none := by
    rw [List.find?_eq_none]
    intro r hr
    simp only [beq_iff_eq]
    intro hcontra
    exact h (List.mem_map.mpr ⟨r, hr, hcontra⟩)
  rw [hfind]

theorem emit_invoked_all_ok (ls : List Listener) (h : ∀ l ∈ ls, l.fails = false) :
    emit_invoked ls = ls.map (·.id) := by
  induction ls with
  | nil => rfl
  | cons a t ih =>
    have ha := h a (List.mem_cons_self a t)
    simp [emit_invoked, ha, ih (fun l hl => h l (List.mem_cons_of_mem a hl))]

theorem emit_invoked_upto_fail (pre : List Listener) (l : Listener)
    (post : List Listener) (hpre : ∀ x ∈ pre, x.fails = false)
    (hl : l.fails = true) :
    emit_invoked (pre ++ l :: post) = pre.map (·.id) ++ [l.id] := by
  induction pre with
  | nil => simp [emit_invoked, hl]
  | cons a t ih =>
    have ha := hpre a (List.mem_cons_self a t)
    simp [emit_invoked, ha, ih (fun x hx => hpre x (List.mem_cons_of_mem a hx))]

/-! ## Claim theorems -/

/-- C10: the chat service unread counter. `handle_incoming` appends the
message and, only while the panel is closed, increments the counter by
exactly one and emits the new count; `set_chat_open(true)` resets the
counter to 0 and emits `UnreadCountChanged(0)`; `set_chat_open(false)`
leaves the counter unchanged and emits nothing; `clear` resets it to 0. -/
theorem chat_unread_counter_spec (s : ChatServiceState) (msg : ChatMessage) :
    (s.handle_incoming msg).1.messages = s.messages ++ [msg]
    ∧ (s.handle_incoming msg).1.unread_count =
        (if s.chat_open then s.unread_count else s.unread_count + 1)
    ∧ (s.handle_incoming msg).2 =
        (if s.chat_open then [VisioEvent.ChatMessageReceived msg]
         else [VisioEvent.ChatMessageReceived msg,
               VisioEvent.UnreadCountChanged (s.unread_count + 1)])
    ∧ (s.set_chat_open true).1.unread_count = 0
    ∧ (s.set_chat_open true).2 = [VisioEvent.UnreadCountChanged 0]
    ∧ (s.set_chat_open false).1.unread_count = s.unread_count
    ∧ (s.set_chat_open false).2 = []
    ∧ s.clear.unread_count = 0 := by
  unfold ChatServiceState.handle_incoming ChatServiceState.set_chat_open
    ChatServiceState.clear
  by_cases h : s.chat_open <;> simp [h]

/-- C9 counterexample: with two registered listeners where the first one's
callback fails, `emit` (which has no per-listener isolation) never invokes
the second listener, contradicting the claim that each listener is invoked
exactly once and that a failure does not prevent the remaining listeners. -/
theorem emit_isolation_cex :
    emit_invoked [Listener.mk 0 true, Listener.mk 1 false] = [0]
    ∧ (emit_invoked [Listener.mk 0 true, Listener.mk 1 false]).count 1 = 0
    ∧ emit_escaped [Listener.mk 0 true, Listener.mk 1 false] = true := by
  decide

/-- C9 amended: when no registered callback fails, `emit` invokes every
listener exactly once, in registration order, and nothing escapes; when some
callback fails, exactly the listeners up to and including the first failing
one are invoked (each once), the rest are skipped, and the failure escapes
`emit` into the event-loop task. -/
theorem emit_isolation_amended (ls : List Listener) :
    ((∀ l ∈ ls, l.fails = false) →
      emit_invoked ls = ls.map (·.id) ∧ emit_escaped ls = false)
    ∧ (∀ pre l post, ls = pre ++ l :: post → (∀ x ∈ pre, x.fails = false) →
        l.fails = true →
        emit_invoked ls = pre.map (·.id) ++ [l.id] ∧ emit_escaped ls = true) := by
  constructor
  · intro h
    refine ⟨emit_invoked_all_ok ls h, ?_⟩
    unfold emit_escaped
    simp only [List.any_eq_false]
    intro l hl
    simp [h l hl]
  · intro pre l post hsplit hpre hl
    subst hsplit
    refine ⟨emit_invoked_upto_fail pre l post hpre hl, ?_⟩
    unfold emit_escaped
    rw [List.any_eq_true]
    exact ⟨l, by simp, hl⟩

/-- C9 witness: three listeners, the middle one failing — exactly the first
two are invoked. -/
theorem emit_isolation_amended_witness :
    emit_invoked [Listener.mk 0 false, Listener.mk 1 true, Listener.mk 2 false]
        = [0, 1]
    ∧ emit_escaped [Listener.mk 0 false, Listener.mk 1 true, Listener.mk 2 false]
        = true :=
  (emit_isolation_amended
      [Listener.mk 0 false, Listener.mk 1 true, Listener.mk 2 false]).2
    [Listener.mk 0 false] (Listener.mk 1 true) [Listener.mk 2 false]
    rfl (by decide) rfl

/-- C8 counterexample: `set_active_speakers` stores the given sids verbatim,
so feeding it a sid that is not in the directory (the event loop does this
whenever the transport reports the local participant — never a directory
member — as speaking) leaves the active-speaker set not a subset of the
directory sids. -/
theorem speakers_subset_cex :
    "p1" ∈ (ParticipantManager.new.set_active_speakers ["p1"]).active_speakers
    ∧ ¬ ParticipantManager.SpeakersSubset
        (ParticipantManager.new.set_active_speakers ["p1"])
    ∧ ¬ ParticipantManager.SpeakersSubset
        (process_event parse0 sampleRoom
          (RoomEvt.ActiveSpeakersChanged ["local"])).1.participants := by
  refine ⟨by decide, by decide, ?_⟩
  decide

/-- C8 amended: `add_participant`, `remove_participant` (which also drops
the sid from the speaker list) and `clear` preserve the invariant
active-speaker set ⊆ directory sids, as do sid-preserving field updates and
`set_local_sid`; `set_active_speakers` preserves it exactly when every
provided sid belongs to the directory — the event loop however passes the
transport-reported sids through unfiltered, so the invariant can be broken
by a speaker (e.g. the local participant) absent from the directory. -/
theorem speakers_subset_amended (m : ParticipantManager) (op : PMOp)
    (hm : m.SpeakersSubset) (hg : op.Guard m) :
    (op.apply m).SpeakersSubset := by
  cases op with
  | add info =>
    rw [show PMOp.apply m (PMOp.add info) = m.add_participant info from rfl]
    intro s hs
    unfold ParticipantManager.add_participant at hs ⊢
    by_cases hdup : m.participants.any (fun p => p.sid == info.sid) = true
    · rw [if_pos hdup] at hs ⊢
      exact hm s hs
    · rw [if_neg hdup] at hs ⊢
      have hmem := hm s hs
      unfold ParticipantManager.sids at hmem
      show s ∈ List.map (·.sid) (m.participants ++ [info])
      rw [List.map_append]
      exact List.mem_append.mpr (Or.inl hmem)
  | remove sid =>
    rw [show PMOp.apply m (PMOp.remove sid) = m.remove_participant sid from rfl]
    intro s hs
    unfold ParticipantManager.remove_participant at hs ⊢
    simp only [List.mem_filter, bne_iff_ne, ne_eq, decide_eq_true_eq] at hs
    obtain ⟨hs1, hs2⟩ := hs
    have hmem := hm s hs1
    unfold ParticipantManager.sids at hmem
    show s ∈ List.map (·.sid) (m.participants.filter (fun p => p.sid != sid))
    rcases List.mem_map.mp hmem with ⟨p, hp, hps⟩
    refine List.mem_map.mpr ⟨p, List.mem_filter.mpr ⟨hp, ?_⟩, hps⟩
    simp [hps, hs2]
  | setSpeakers sids =>
    intro s hs
    exact hg s hs
  | modify sid f =>
    rw [show PMOp.apply m (PMOp.modify sid f) = m.modify_participant sid f from rfl]
    intro s hs
    have hmem := hm s hs
    unfold ParticipantManager.sids at hmem
    show s ∈ List.map (·.sid) (ParticipantManager.update_first sid f m.participants)
    rw [update_first_sid_map sid f hg]
    exact hmem
  | setLocal sid =>
    intro s hs
    exact hm s hs
  | clearOp =>
    intro s hs
    exact absurd hs (List.not_mem_nil s)
/-- C8 witness: on a directory containing `p1`, setting the active speakers
to `[p1]` keeps the invariant. -/
theorem speakers_subset_amended_witness :
    ParticipantManager.SpeakersSubset
      (PMOp.apply
        (ParticipantManager.new.add_participant (remote_participant_to_info pRemote))
        (PMOp.setSpeakers ["p1"])) :=
  speakers_subset_amended
    (ParticipantManager.new.add_participant (remote_participant_to_info pRemote))
    (PMOp.setSpeakers ["p1"]) (by decide)
    (by intro x hx; rcases List.mem_singleton.mp hx with rfl; decide)

/-- C7: the renderer registry holds at most one active renderer per track
sid after any sequence of start/stop calls from the empty registry;
`start(sid, surfaceB)` after `start(sid, surfaceA)` leaves exactly one
active renderer, bound to surfaceB, with surfaceA's cancellation signal set;
`stop` on a sid with no active renderer is an identity no-op (hence
idempotent, and total — it never errors). -/
theorem renderer_registry_spec :
    (∀ ops : List RendererRegistry.RegOp,
        (RendererRegistry.applyOps RendererRegistry.empty ops).AtMostOnePerSid)
    ∧ (RendererRegistry.start_track_renderer "t" 2
          (RendererRegistry.start_track_renderer "t" 1 RendererRegistry.empty)).active
        = [TrackRenderer.mk "t" 2 false]
    ∧ (RendererRegistry.start_track_renderer "t" 2
          (RendererRegistry.start_track_renderer "t" 1 RendererRegistry.empty)).stopped
        = [TrackRenderer.mk "t" 1 true]
    ∧ (∀ (reg : RendererRegistry) (sid : String), sid ∉ reg.activeSids →
        RendererRegistry.stop_track_renderer sid reg = reg)
    ∧ (∀ (reg : RendererRegistry) (sid : String),
        RendererRegistry.stop_track_renderer sid
            (RendererRegistry.stop_track_renderer sid reg)
          = RendererRegistry.stop_track_renderer sid reg) := by
  refine ⟨?_, by decide, by decide, ?_, ?_⟩
  · intro ops
    exact applyOps_preserves_nodup ops RendererRegistry.empty (by decide)
  · intro reg sid h
    exact stop_eq_of_not_mem sid reg h
  · intro reg sid
    exact stop_eq_of_not_mem sid _ (stop_not_mem_activeSids sid reg)

/-- C7 witness: a concrete start/stop/start sequence keeps at most one
active renderer per sid, and stopping an unknown sid on the empty registry
is a no-op. -/
theorem renderer_registry_spec_witness :
    (RendererRegistry.applyOps RendererRegistry.empty
        [RendererRegistry.RegOp.start "t" 1, RendererRegistry.RegOp.stop "t",
         RendererRegistry.RegOp.start "t" 2]).AtMostOnePerSid
    ∧ RendererRegistry.stop_track_renderer "x" RendererRegistry.empty
        = RendererRegistry.empty :=
  ⟨renderer_registry_spec.1
      [RendererRegistry.RegOp.start "t" 1, RendererRegistry.RegOp.stop "t",
       RendererRegistry.RegOp.start "t" 2],
   renderer_registry_spec.2.2.2.1 RendererRegistry.empty "x" (by decide)⟩

/-- C3: when the 3-second auto-lower timer fires it re-reads the live
queue. If the local hand is still raised it removes every entry of the
local sid and emits exactly one `(sid, raised=false, position=0)`
notification; if the hand is no longer raised the fire is a no-op (state
unchanged, nothing emitted). In particular, after a manual `lower_hand`
inside the window the hand is lowered and a subsequent fire changes nothing
and emits nothing — the timer never re-raises or re-notifies. -/
theorem auto_lower_fire_spec (s : HandRaiseState) :
    (s.is_hand_raised = true →
      s.auto_lower_fire =
        ({ s with raised_hands :=
              s.raised_hands.filter (fun p => p.2 != s.local_sid) },
         [VisioEvent.HandRaisedChanged s.local_sid false 0]))
    ∧ (s.is_hand_raised = false → s.auto_lower_fire = (s, []))
    ∧ (s.lower_hand).1.is_hand_raised = false
    ∧ (s.lower_hand).1.auto_lower_fire = ((s.lower_hand).1, [])
    ∧ ((s.lower_hand).1.auto_lower_fire).1.is_hand_raised = false := by
  have hfilter := any_filter_ne_eq_false s.raised_hands s.local_sid
  refine ⟨?_, ?_, ?_, ?_, ?_⟩
  · intro h
    unfold HandRaiseState.auto_lower_fire
    rw [if_pos]
    exact h
  · intro h
    unfold HandRaiseState.auto_lower_fire
    rw [if_neg]
    simp only [HandRaiseState.is_hand_raised] at h
    simp [h]
  · simp [HandRaiseState.lower_hand, HandRaiseState.is_hand_raised, hfilter]
  · unfold HandRaiseState.auto_lower_fire
    rw [if_neg]
    simp [HandRaiseState.lower_hand, hfilter]
  · unfold HandRaiseState.auto_lower_fire
    rw [if_neg]
    · simp [HandRaiseState.lower_hand, HandRaiseState.is_hand_raised, hfilter]
    · simp [HandRaiseState.lower_hand, hfilter]

/-- C3 witness: with the local hand raised, the fire lowers it and emits one
notification; the manual-lower-then-fire race leaves the hand lowered. -/
theorem auto_lower_fire_spec_witness :
    (HandRaiseState.mk "local" [(10, "local")] true).auto_lower_fire
        = (HandRaiseState.mk "local" [] true,
           [VisioEvent.HandRaisedChanged "local" false 0])
    ∧ ((HandRaiseState.mk "local" [(10, "local")] true).lower_hand).1.auto_lower_fire
        = (((HandRaiseState.mk "local" [(10, "local")] true).lower_hand).1, []) :=
  ⟨(auto_lower_fire_spec (HandRaiseState.mk "local" [(10, "local")] true)).1
      (by decide),
   (auto_lower_fire_spec (HandRaiseState.mk "local" [(10, "local")] true)).2.2.2.1⟩

/-- C4 counterexample: `raise_hand` inserts without checking for an existing
entry, so raising the local hand at timestamp 1 and again at timestamp 2
leaves two live queue entries for the local sid; and because the queue is
keyed by timestamp, a remote raise by `B` at the same timestamp 100 as `A`'s
existing entry overwrites it, silently dropping `A`'s entry. -/
theorem hand_queue_unique_cex :
    (handsValues
        (((HandRaiseState.init "local").raise_hand 1).1.raise_hand 2).1.raised_hands).count
        "local" = 2
    ∧ "A" ∈ handsValues (HandRaiseState.mk "local" [(100, "A")] false).raised_hands
    ∧ "A" ∉ handsValues
        (((HandRaiseState.mk "local" [(100, "A")] false).handle_participant_attributes
            parse0 "B" [("handRaisedAt", "100")]).1.raised_hands)
    ∧ "B" ∈ handsValues
        (((HandRaiseState.mk "local" [(100, "A")] false).handle_participant_attributes
            parse0 "B" [("handRaisedAt", "100")]).1.raised_hands) := by
  decide

/-- C4 amended: attribute-driven updates insert only when the sid has no
live entry, so `handle_participant_attributes` preserves the at-most-one-
entry-per-sid invariant provided the ingested timestamp does not collide
with an existing key (a colliding insert replaces — and drops — the entry
already stored at that timestamp); `lower_hand`, `auto_lower_fire` and
`clear` always preserve it. `raise_hand`, by contrast, inserts
unconditionally and can duplicate the local sid (see the counterexample). -/
theorem hand_queue_unique_amended (parseIso : String → Option Int) (sid : String)
    (attrs : List (String × String)) (s : HandRaiseState)
    (h1 : (handsValues s.raised_hands).Nodup)
    (h2 : HandRaiseState.parse_timestamp parseIso
        ((attrs.lookup "handRaisedAt").getD "") ∉ handsKeys s.raised_hands) :
    (handsValues
        (s.handle_participant_attributes parseIso sid attrs).1.raised_hands).Nodup
    ∧ (handsValues (s.lower_hand).1.raised_hands).Nodup
    ∧ (handsValues s.auto_lower_fire.1.raised_hands).Nodup
    ∧ (handsValues s.clear.raised_hands).Nodup := by
  refine ⟨?_, values_filter_nodup _ _ h1, ?_, by simp [HandRaiseState.clear, handsValues]⟩
  · unfold HandRaiseState.handle_participant_attributes
    by_cases hr : (attrs.lookup "handRaisedAt").getD "" ≠ ""
    · rw [if_pos hr]
      by_cases hp : s.raised_hands.any (fun p => p.2 == sid) = true
      · simp only [hp, if_true]
        exact h1
      · rw [Bool.not_eq_true] at hp
        simp only [hp]
        rw [if_neg (by simp)]
        have hnot : sid ∉ handsValues s.raised_hands := by
          intro hmem
          rcases List.mem_map.mp hmem with ⟨p, hpmem, hpsid⟩
          rw [List.any_eq_false] at hp
          exact absurd (by simp [hpsid]) (hp p hpmem)
        rw [(btInsert_values_perm _ sid s.raised_hands h2).nodup_iff]
        exact List.nodup_cons.mpr ⟨hnot, h1⟩
    · rw [if_neg hr]
      exact values_filter_nodup _ _ h1
  · unfold HandRaiseState.auto_lower_fire
    by_cases hr : s.raised_hands.any (fun p => p.2 == s.local_sid) = true
    · rw [if_pos hr]
      exact values_filter_nodup _ _ h1
    · rw [if_neg hr]
      exact h1

/-- C4 witness: a fresh-timestamp remote raise on a one-entry queue keeps
the sids duplicate-free. -/
theorem hand_queue_unique_amended_witness :
    (handsValues
        (((HandRaiseState.mk "local" [(100, "A")] false).handle_participant_attributes
            parse0 "B" [("handRaisedAt", "200")]).1.raised_hands)).Nodup := by
  have h := hand_queue_unique_amended parse0 "B" [("handRaisedAt", "200")]
    (HandRaiseState.mk "local" [(100, "A")] false) (by decide) (by decide)
  exact h.1

/-- C5: a raise via `handle_participant_attributes` for a sid with no live
entry inserts `(timestamp, sid)` into the queue and notifies with the
1-based rank of the entry among all entries in ascending timestamp order
(one plus the number of entries with strictly smaller timestamps); in the
concrete scenario A, B, C raising at timestamps 1, 2, 3 are notified with
positions 1, 2, 3, lowering B notifies with position 0, and re-raising B at
the later timestamp 4 places it at the new, later position 3. -/
theorem hand_raise_position_spec (parseIso : String → Option Int) (sid : String)
    (attrs : List (String × String)) (s : HandRaiseState)
    (hs : HandsSorted s.raised_hands)
    (hv : sid ∉ handsValues s.raised_hands)
    (hr : (attrs.lookup "handRaisedAt").getD "" ≠ "") :
    s.handle_participant_attributes parseIso sid attrs =
      ({ s with raised_hands :=
          btInsert (HandRaiseState.parse_timestamp parseIso
              ((attrs.lookup "handRaisedAt").getD "")) sid s.raised_hands },
       [VisioEvent.HandRaisedChanged sid true
          (rankBelow (HandRaiseState.parse_timestamp parseIso
              ((attrs.lookup "handRaisedAt").getD "")) s.raised_hands + 1)])
    ∧ hrA.2 = [VisioEvent.HandRaisedChanged "A" true 1]
    ∧ hrB.2 = [VisioEvent.HandRaisedChanged "B" true 2]
    ∧ hrC.2 = [VisioEvent.HandRaisedChanged "C" true 3]
    ∧ hrLowerB.2 = [VisioEvent.HandRaisedChanged "B" false 0]
    ∧ hrReraiseB.2 = [VisioEvent.HandRaisedChanged "B" true 3]
    ∧ hrReraiseB.1.raised_hands = [(1, "A"), (3, "C"), (4, "B")] := by
  refine ⟨?_, by decide, by decide, by decide, by decide, by decide, by decide⟩
  have hany : s.raised_hands.any (fun p => p.2 == sid) = false := by
    rw [List.any_eq_false]
    intro p hp
    simp only [beq_iff_eq]
    intro hcontra
    exact hv (List.mem_map.mpr ⟨p, hp, hcontra⟩)
  unfold HandRaiseState.handle_participant_attributes
  rw [if_pos hr]
  simp only [hany]
  rw [if_neg (by simp)]
  have hpos := posFirst_btInsert
    (HandRaiseState.parse_timestamp parseIso ((attrs.lookup "handRaisedAt").getD ""))
    sid s.raised_hands hs hv
  unfold position1
  rw [hpos]
  rfl

/-- C5 witness: a fourth participant Z raising at timestamp 10 after A, B, C
is notified with position 4. -/
theorem hand_raise_position_spec_witness :
    (hrC.1.handle_participant_attributes parse0 "Z" [("handRaisedAt", "10")]).2
      = [VisioEvent.HandRaisedChanged "Z" true 4] := by
  have h := (hand_raise_position_spec parse0 "Z" [("handRaisedAt", "10")] hrC.1
    (by decide) (by decide) (by decide)).1
  rw [h]
  decide

/-- C1 counterexample: processing a `Disconnected` event — including the
synchronous dispatch of the emitted events to the registered desktop
listener — leaves the track-renderer registry untouched: the renderer for
track "t1" is still registered and un-cancelled even though the loop
terminated, so the registry is not emptied as the claim states. -/
theorem disconnect_registry_cex :
    (loop_iteration parse0 true sampleRoom sampleReg RoomEvt.Disconnected).2.1
        = sampleReg
    ∧ sampleReg.active = [TrackRenderer.mk "t1" 7 false]
    ∧ (loop_iteration parse0 true sampleRoom sampleReg RoomEvt.Disconnected).2.2.2
        = false := by
  refine ⟨rfl, rfl, rfl⟩

/-- C1 amended: a `Disconnected` event from any state forces the connection
state to Disconnected, empties the participant directory, the
subscribed-track table, the chat transcript, the hand-raise state, the
audio playout buffer and the audio playout tasks, drops the room reference,
and terminates the loop (subsequent events are not processed). The
track-renderer registry, however, is NOT emptied: neither the event loop
(which never calls into the renderer registry) nor any registered listener
reacts to the disconnect by stopping renderers. -/
theorem disconnect_spec (parseIso : String → Option Int) (s : RoomState)
    (rest : List RoomEvt) (reg : RendererRegistry) :
    (process_event parseIso s RoomEvt.Disconnected).1.connection_state
        = ConnectionState.Disconnected
    ∧ (process_event parseIso s RoomEvt.Disconnected).1.participants
        = ParticipantManager.new
    ∧ (process_event parseIso s RoomEvt.Disconnected).1.subscribed_tracks = []
    ∧ (process_event parseIso s RoomEvt.Disconnected).1.messages = []
    ∧ (process_event parseIso s RoomEvt.Disconnected).1.playout_samples = []
    ∧ (process_event parseIso s RoomEvt.Disconnected).1.hand_raise = none
    ∧ (process_event parseIso s RoomEvt.Disconnected).1.audio_stream_tasks = []
    ∧ (process_event parseIso s RoomEvt.Disconnected).1.room_present = false
    ∧ (process_event parseIso s RoomEvt.Disconnected).2.2 = false
    ∧ event_loop parseIso s (RoomEvt.Disconnected :: rest)
        = ((process_event parseIso s RoomEvt.Disconnected).1,
           (process_event parseIso s RoomEvt.Disconnected).2.1)
    ∧ desktop_dispatch reg (process_event parseIso s RoomEvt.Disconnected).2.1
        = reg := by
  refine ⟨rfl, rfl, rfl, rfl, rfl, rfl, rfl, rfl, rfl, rfl, rfl⟩

/-- C2 counterexample: a legacy `DataReceived` on topic "lk-chat-topic"
whose payload parses as a JSON envelope with `ignoreLegacy` absent but no
(or an empty) `message` field appends nothing to the transcript and emits
nothing — the iteration is a complete no-op — whereas the claim requires
exactly one message to be appended. -/
theorem chat_dedup_cex :
    process_event parse0 sampleRoom
        (RoomEvt.DataReceived (some "lk-chat-topic") (some emptyEnvelope)
          (some pRemote))
      = (sampleRoom, [], true) := by
  rfl

/-- C2 amended: a legacy envelope with `ignoreLegacy == true` is dropped
(nothing appended, nothing emitted); one with `ignoreLegacy` false or
absent is appended exactly once — but only when its `message` text is
non-empty; an envelope with empty or missing message text is dropped
silently. A stream-path (`TextStreamOpened`, topic "lk.chat") message whose
read succeeds is always appended exactly once. -/
theorem chat_dedup_amended (parseIso : String → Option Int) (s : RoomState)
    (env : LegacyEnvelope) (sender : Option RemoteParticipant)
    (identity stream_id : String) (timestamp_ms : Nat)
    (sender_name : Option String) (text : String) :
    (env.ignoreLegacy = some true →
      process_event parseIso s
          (RoomEvt.DataReceived (some "lk-chat-topic") (some env) sender)
        = (s, [], true))
    ∧ (env.ignoreLegacy ≠ some true → env.message.getD "" ≠ "" →
      process_event parseIso s
          (RoomEvt.DataReceived (some "lk-chat-topic") (some env) sender)
        = ({ s with messages := s.messages ++ [legacy_chat_message env sender] },
           [VisioEvent.ChatMessageReceived (legacy_chat_message env sender)], true))
    ∧ (env.ignoreLegacy ≠ some true → env.message.getD "" = "" →
      process_event parseIso s
          (RoomEvt.DataReceived (some "lk-chat-topic") (some env) sender)
        = (s, [], true))
    ∧ process_event parseIso s
          (RoomEvt.TextStreamOpened "lk.chat" identity stream_id timestamp_ms
            sender_name (some text))
        = ({ s with messages :=
              s.messages ++
                [stream_chat_message identity stream_id timestamp_ms sender_name text] },
           [VisioEvent.ChatMessageReceived
              (stream_chat_message identity stream_id timestamp_ms sender_name text)],
           true) := by
  refine ⟨?_, ?_, ?_, ?_⟩
  · intro h
    simp [process_event, h]
  · intro h1 h2
    simp [process_event, h1, h2, legacy_chat_message]
  · intro h1 h2
    simp [process_event, h1, h2]
  · simp [process_event, stream_chat_message]

/-- C2 witness: a legacy envelope with `ignoreLegacy = false` and text
"hello" is appended exactly once. -/
theorem chat_dedup_amended_witness :
    (process_event parse0 sampleRoom
        (RoomEvt.DataReceived (some "lk-chat-topic")
          (some (LegacyEnvelope.mk (some false) (some "9") (some "hello") (some 4)))
          (some pRemote))).1.messages
      = sampleRoom.messages
          ++ [legacy_chat_message
                (LegacyEnvelope.mk (some false) (some "9") (some "hello") (some 4))
                (some pRemote)] := by
  have h := (chat_dedup_amended parse0 sampleRoom
      (LegacyEnvelope.mk (some false) (some "9") (some "hello") (some 4))
      (some pRemote) "i" "s" 0 none "t").2.1 (by decide) (by decide)
  rw [h]

/-- C6 counterexample: in the visio-ffi configuration — where no registered
listener stops renderers — processing a video `TrackUnsubscribed` for "t1"
removes the track handle from the subscribed-track table but leaves the
renderer for "t1" registered and un-cancelled: the event loop itself never
calls the registry's stop. -/
theorem track_unsub_renderer_cex :
    (loop_iteration parse0 false sampleRoom sampleReg
        (RoomEvt.TrackUnsubscribed "t1" pRemote TrackKind.Video)).2.1.active
      = [TrackRenderer.mk "t1" 7 false]
    ∧ (loop_iteration parse0 false sampleRoom sampleReg
        (RoomEvt.TrackUnsubscribed "t1" pRemote TrackKind.Video)).1.subscribed_tracks
      = [] := by
  refine ⟨rfl, rfl⟩

/-- C6 amended: for a video `TrackUnsubscribed` the event loop clears the
owning participant's `has_video` flag and `video_track_sid`, removes the
track handle from the subscribed-track table, and emits a
`TrackUnsubscribed` application event — but it does not itself call the
renderer registry's stop: the registry is left untouched by the iteration
unless the desktop auto-stop listener is registered, in which case the
synchronous listener dispatch stops (removes and cancels) the renderer for
that track sid. -/
theorem track_unsub_spec (parseIso : String → Option Int) (s : RoomState)
    (reg : RendererRegistry) (track_sid : String) (p : RemoteParticipant) :
    (process_event parseIso s
          (RoomEvt.TrackUnsubscribed track_sid p TrackKind.Video)).1.participants.participant
          p.sid
        = (s.participants.participant p.sid).map
            (fun q => { q with has_video := false, video_track_sid := none })
    ∧ (process_event parseIso s
          (RoomEvt.TrackUnsubscribed track_sid p TrackKind.Video)).1.subscribed_tracks
        = s.subscribed_tracks.filter (fun t => t != track_sid)
    ∧ (process_event parseIso s
          (RoomEvt.TrackUnsubscribed track_sid p TrackKind.Video)).2.1
        = [VisioEvent.TrackUnsubscribed track_sid]
    ∧ (process_event parseIso s
          (RoomEvt.TrackUnsubscribed track_sid p TrackKind.Video)).2.2 = true
    ∧ (loop_iteration parseIso false s reg
          (RoomEvt.TrackUnsubscribed track_sid p TrackKind.Video)).2.1 = reg
    ∧ (loop_iteration parseIso true s reg
          (RoomEvt.TrackUnsubscribed track_sid p TrackKind.Video)).2.1
        = RendererRegistry.stop_track_renderer track_sid reg
    ∧ track_sid ∉ ((loop_iteration parseIso true s reg
          (RoomEvt.TrackUnsubscribed track_sid p TrackKind.Video)).2.1).activeSids := by
  refine ⟨?_, rfl, rfl, rfl, rfl, rfl, ?_⟩
  · show (s.participants.modify_participant p.sid
        (fun q => { q with has_video := false, video_track_sid := none })).participant p.sid
      = (s.participants.participant p.sid).map
          (fun q => { q with has_video := false, video_track_sid := none })
    unfold ParticipantManager.participant ParticipantManager.modify_participant
    exact find_update_first p.sid
      (fun q => { q with has_video := false, video_track_sid := none })
      (fun q => rfl) s.participants.participants
  · show track_sid ∉
      (RendererRegistry.stop_track_renderer track_sid reg).activeSids
    exact stop_not_mem_activeSids track_sid reg

end Visio
